import Mathlib

/-!
# Shallow embedding of `InstanceManager.py`

This file embeds the `InstanceManager` class of the repository
`American-Institutes-for-Research/InstanceManager` (file
`src/InstanceManager.py`) into Lean 4 and proves properties of it.

Modelling conventions:

* An EC2 instance is a record with its `id` and `public_ip_address`.
* The manager's mutable attributes (`self.instances`, `self.ssh_clients`,
  `self.security_group_ids`, `self.security_group_created`,
  `self.home_directory`) become fields of `IMState`.  The `ssh_clients`
  dictionary is an association list from instance id to an SSH-client
  handle (a `Nat`); the set of handles on which `.close()` has been
  called is tracked in `closedHandles`.  Fresh handles are allocated
  from the counter `nextHandle` (one per `paramiko.SSHClient()` call).
* External calls (AWS lifecycle calls, waiters, `print`, `time.sleep`,
  `client.connect`, `exec_command`, SFTP transfers, security-group
  calls) are recorded as an `Effect` trace, in program order.
* A Python exception that escapes a method becomes `error = some e` in
  the returned `StepResult`; the state and the effects produced before
  the exception are kept, matching Python semantics.
* Outcomes of the network (whether `client.connect` succeeds, what a
  remote command prints and its exit status, whether AWS calls fail)
  are supplied by oracle parameters.
-/

/-- An AWS EC2 instance as used by `InstanceManager`: only its `id` and
`public_ip_address` attributes are read by the code. -/
structure Instance where
  id : Nat
  publicIp : String
deriving DecidableEq, Repr

/-- The three exception classes caught by the retry loop of
`connect_to_instances`: `TimeoutError`,
`paramiko.ssh_exception.NoValidConnectionsError` and
`paramiko.ssh_exception.AuthenticationException`. -/
inductive ConnErrorKind where
  | timeout
  | noValidConn
  | authFail
deriving DecidableEq, Repr

/-- Observable effects of the methods, in program order.  Each `print`
statement of the source gets its own structured constructor. -/
inductive Effect where
  | printTerminating (iid : Nat)
  | terminateCall (iid : Nat)
  | waitUntilTerminated (iid : Nat)
  | printTerminated (iid : Nat)
  | printStarting (iid : Nat)
  | startCall (iid : Nat)
  | waitUntilRunning (iid : Nat)
  | printRunning (iid : Nat)
  | stopCall (iid : Nat)
  | waitUntilStopped (iid : Nat)
  | printStopped (iid : Nat)
  | closeClient (handle : Nat)
  | printNoConnWarning (iid : Nat)
  | connectAttempt (iid : Nat) (attempt : Nat)
  | printRetryDiag (kind : ConnErrorKind) (attempt : Nat) (ip : String)
  | sleep (secs : Nat)
  | printExecuting (cmd : String)
  | execCommand (iid : Nat) (cmd : String)
  | recvExitStatus (iid : Nat)
  | printLine (s : String)
  | sftpPut (iid : Nat) (src : String) (dst : String)
  | createSGCall
  | authorizeIngressCall
  | printSGAlreadyCreated
  | describeSGCall (name : String)
  | deleteSGCall (gid : String)
  | printSGDeleted (gid : String)
  | printClientErr (msg : String)
  | printParseError
deriving DecidableEq, Repr

/-- Exceptions that can escape a method of `InstanceManager`.
The source raises plain Python exceptions; the names here record both
the Python class and the condition it signals. -/
inductive IMError where
  /-- The bare `TypeError` raised by `__parse_instances` when a provided
  instance is not in `self.instances` (the spec calls this condition
  `UnknownInstanceError`). -/
  | typeErrorUnknownInstance
  /-- The `KeyError` from `self.ssh_clients[instance.id]` when the
  instance has no tracked session (the spec calls this `NoSessionError`). -/
  | keyErrorNoSession (iid : Nat)
  /-- A connection error re-raised after `max_attempts` attempts. -/
  | connError (k : ConnErrorKind)
  /-- A `botocore.exceptions.ClientError` re-raised to the caller. -/
  | clientError (msg : String)
deriving DecidableEq, Repr

/-- The mutable attributes of an `InstanceManager` object. -/
structure IMState where
  instances : List Instance
  sshClients : List (Nat × Nat)
  closedHandles : List Nat
  securityGroupIds : Option (List String)
  securityGroupCreated : Bool
  homeDirectory : String
  nextHandle : Nat
deriving DecidableEq, Repr

/-- Result of running one method: the updated state, the effect trace,
and the exception that escaped, if any. -/
structure StepResult where
  state : IMState
  trace : List Effect
  error : Option IMError
deriving DecidableEq, Repr

/-- The `instances` parameter of the per-instance methods: absent
(`None` in Python), a single bare instance, or an iterable. -/
inductive InstParam where
  | none
  | single (i : Instance)
  | list (l : List Instance)
deriving DecidableEq, Repr

/-- Dictionary lookup `self.ssh_clients[iid]`, as `Option`. -/
def lookupClient (l : List (Nat × Nat)) (k : Nat) : Option Nat :=
  match l.find? (fun p => p.1 = k) with
  | some p => some p.2
  | Option.none => Option.none

/-- Dictionary assignment `self.ssh_clients[k] = v`: replace the entry
for `k` if present, otherwise append a new entry. -/
def setClient : List (Nat × Nat) → Nat → Nat → List (Nat × Nat)
  | [], k, v => [(k, v)]
  | p :: rest, k, v => if p.1 = k then (k, v) :: rest else p :: setClient rest k v

/-- Number of entries stored under key `k`. -/
def countKey (l : List (Nat × Nat)) (k : Nat) : Nat :=
  (l.filter (fun p => p.1 = k)).length

/-- Whether the dictionary has an entry for key `k`
(`instance.id in self.ssh_clients`). -/
def hasKey (l : List (Nat × Nat)) (k : Nat) : Bool :=
  l.any (fun p => p.1 = k)

/-- `isPrefixChars pat s`: `pat` is a prefix of `s`. -/
def isPrefixChars : List Char → List Char → Bool
  | [], _ => true
  | _ :: _, [] => false
  | a :: as, b :: bs => a = b && isPrefixChars as bs

/-- `containsChars pat s`: `pat` occurs as a contiguous substring of `s`. -/
def containsChars (pat : List Char) : List Char → Bool
  | [] => isPrefixChars pat []
  | c :: rest => isPrefixChars pat (c :: rest) || containsChars pat rest

/-- Python's `pat in s` on strings. -/
def strContains (s pat : String) : Bool :=
  containsChars pat.data s.data

/-- Python's `os.path.join(a, b)` for the two-argument uses in the code. -/
def pathJoin (a b : String) : String :=
  if b.startsWith "/" then b
  else if a.endsWith "/" || a = "" then a ++ b
  else a ++ "/" ++ b

/-- Concatenation of per-instance effect segments, in list order. -/
def traceFor (f : Instance → List Effect) : List Instance → List Effect
  | [] => []
  | i :: rest => f i ++ traceFor f rest

/-- `__parse_instances`: `None` means all tracked instances; a bare
instance is wrapped in a one-element list; a provided instance that is
not in `self.instances` raises `TypeError` (after printing a message,
which the caller records). -/
def parseInstances (st : IMState) : InstParam → Except IMError (List Instance)
  | InstParam.none => Except.ok st.instances
  | InstParam.single i =>
      if i ∈ st.instances then Except.ok [i]
      else Except.error IMError.typeErrorUnknownInstance
  | InstParam.list l =>
      if l.all (fun i => decide (i ∈ st.instances)) then Except.ok l
      else Except.error IMError.typeErrorUnknownInstance

/-- The loop body of `close_instance_connections` over the parsed
instance list.  Closing a client records its handle in `closedHandles`;
the dictionary entry itself is NOT removed.  A missing entry raises
`KeyError`, which is caught; unless suppressed, a warning is printed. -/
def closeLoop (suppress : Bool) : List Instance → IMState → StepResult
  | [], st => ⟨st, [], Option.none⟩
  | i :: rest, st =>
    match lookupClient st.sshClients i.id with
    | some h =>
      let st1 := { st with closedHandles := h :: st.closedHandles }
      let r := closeLoop suppress rest st1
      ⟨r.state, Effect.closeClient h :: r.trace, r.error⟩
    | Option.none =>
      let r := closeLoop suppress rest st
      ⟨r.state, (if suppress then [] else [Effect.printNoConnWarning i.id]) ++ r.trace, r.error⟩

/-- `close_instance_connections(instances, suppress_warning)`. -/
def close_instance_connections (st : IMState) (p : InstParam) (suppress : Bool) : StepResult :=
  match parseInstances st p with
  | Except.error e => ⟨st, [Effect.printParseError], some e⟩
  | Except.ok insts => closeLoop suppress insts st

/-- `terminate_instances(instances, wait_until_terminated)`:
print + terminate each instance, optionally wait for each, then close
their SSH connections with warnings suppressed. -/
def terminate_instances (st : IMState) (p : InstParam) (wait : Bool) : StepResult :=
  match parseInstances st p with
  | Except.error e => ⟨st, [Effect.printParseError], some e⟩
  | Except.ok insts =>
    let t1 := traceFor (fun i => [Effect.printTerminating i.id, Effect.terminateCall i.id]) insts
    let t2 := if wait then
        traceFor (fun i => [Effect.waitUntilTerminated i.id, Effect.printTerminated i.id]) insts
      else []
    let rc := close_instance_connections st (InstParam.list insts) true
    ⟨rc.state, t1 ++ t2 ++ rc.trace, rc.error⟩

/-- `start_instances(instances, wait_until_running)`. -/
def start_instances (st : IMState) (p : InstParam) (wait : Bool) : StepResult :=
  match parseInstances st p with
  | Except.error e => ⟨st, [Effect.printParseError], some e⟩
  | Except.ok insts =>
    let t1 := traceFor (fun i => [Effect.printStarting i.id, Effect.startCall i.id]) insts
    let t2 := if wait then
        traceFor (fun i => [Effect.waitUntilRunning i.id, Effect.printRunning i.id]) insts
      else []
    ⟨st, t1 ++ t2, Option.none⟩

/-- `stop_instances(instances, wait_until_stopped)`.  (The source
prints `'Terminating instance'` before each stop — a copy/paste quirk
kept here.) -/
def stop_instances (st : IMState) (p : InstParam) (wait : Bool) : StepResult :=
  match parseInstances st p with
  | Except.error e => ⟨st, [Effect.printParseError], some e⟩
  | Except.ok insts =>
    let t1 := traceFor (fun i => [Effect.printTerminating i.id, Effect.stopCall i.id]) insts
    let t2 := if wait then
        traceFor (fun i => [Effect.waitUntilStopped i.id, Effect.printStopped i.id]) insts
      else []
    let rc := close_instance_connections st (InstParam.list insts) true
    ⟨rc.state, t1 ++ t2 ++ rc.trace, rc.error⟩

/-- Outcome of one `client.connect` call. -/
inductive ConnOutcome where
  | success
  | fail (k : ConnErrorKind)
deriving DecidableEq, Repr

/-- The network's behaviour for `client.connect`: given an instance id
and an attempt number (1-based), whether the attempt succeeds. -/
abbrev ConnOracle := Nat → Nat → ConnOutcome

/-- The inner retry loop of `connect_to_instances` for one instance:
`n` attempts remain and the current attempt number is `a`.  Each
attempt allocates a fresh `paramiko.SSHClient()` handle.  On success,
a pre-existing client for the instance is closed first and the new
handle replaces it in the dictionary; on failure at the last attempt
the exception is re-raised, otherwise a diagnostic is printed and the
loop sleeps 10 seconds before retrying. -/
def connectLoop (oracle : ConnOracle) (inst : Instance) : Nat → Nat → IMState → StepResult
  | 0, _, st => ⟨st, [], Option.none⟩
  | n + 1, a, st =>
    let h := st.nextHandle
    let st1 := { st with nextHandle := h + 1 }
    match oracle inst.id a with
    | ConnOutcome.success =>
      match lookupClient st1.sshClients inst.id with
      | some old =>
        ⟨{ st1 with sshClients := setClient st1.sshClients inst.id h,
                    closedHandles := old :: st1.closedHandles },
         [Effect.connectAttempt inst.id a, Effect.closeClient old], Option.none⟩
      | Option.none =>
        ⟨{ st1 with sshClients := setClient st1.sshClients inst.id h },
         [Effect.connectAttempt inst.id a], Option.none⟩
    | ConnOutcome.fail k =>
      if n = 0 then
        ⟨st1, [Effect.connectAttempt inst.id a], some (IMError.connError k)⟩
      else
        let r := connectLoop oracle inst n (a + 1) st1
        ⟨r.state,
         Effect.connectAttempt inst.id a :: Effect.printRetryDiag k a inst.publicIp ::
           Effect.sleep 10 :: r.trace,
         r.error⟩

/-- The outer loop of `connect_to_instances`: an exception escaping the
retry loop of one instance propagates, aborting the remaining
instances. -/
def connectList (oracle : ConnOracle) (maxAttempts : Nat) : List Instance → IMState → StepResult
  | [], st => ⟨st, [], Option.none⟩
  | i :: rest, st =>
    let r := connectLoop oracle i maxAttempts 1 st
    match r.error with
    | some e => ⟨r.state, r.trace, some e⟩
    | Option.none =>
      let r2 := connectList oracle maxAttempts rest r.state
      ⟨r2.state, r.trace ++ r2.trace, r2.error⟩

/-- `connect_to_instances(instances, max_attempts)`. -/
def connect_to_instances (st : IMState) (oracle : ConnOracle) (p : InstParam)
    (maxAttempts : Nat) : StepResult :=
  match parseInstances st p with
  | Except.error e => ⟨st, [Effect.printParseError], some e⟩
  | Except.ok insts => connectList oracle maxAttempts insts st

/-- What a remote command does: exit status and output streams. -/
structure ExecResult where
  exitStatus : Nat
  stdoutLines : List String
  stderrLines : List String
deriving DecidableEq, Repr

/-- The remote side's behaviour for `exec_command`. -/
abbrev ExecOracle := Nat → String → ExecResult

/-- The loop body of `execute_command`: for each instance, look up its
client (`KeyError` escapes if absent), run the command, wait for the
exit status, and print stdout lines on status 0, stderr lines
otherwise.  A non-zero exit status raises nothing. -/
def execLoop (exec : ExecOracle) (cmd : String) : List Instance → IMState → StepResult
  | [], st => ⟨st, [], Option.none⟩
  | i :: rest, st =>
    match lookupClient st.sshClients i.id with
    | Option.none => ⟨st, [], some (IMError.keyErrorNoSession i.id)⟩
    | some _ =>
      let res := exec i.id cmd
      let lines := if res.exitStatus = 0 then res.stdoutLines else res.stderrLines
      let t := Effect.execCommand i.id cmd :: Effect.recvExitStatus i.id ::
        lines.map Effect.printLine
      let r := execLoop exec cmd rest st
      ⟨r.state, t ++ r.trace, r.error⟩

/-- `execute_command(command, instances)`.  Note the `print('Executing:',
command)` happens before `__parse_instances`. -/
def execute_command (st : IMState) (exec : ExecOracle) (cmd : String) (p : InstParam) :
    StepResult :=
  match parseInstances st p with
  | Except.error e => ⟨st, [Effect.printExecuting cmd, Effect.printParseError], some e⟩
  | Except.ok insts =>
    let r := execLoop exec cmd insts st
    ⟨r.state, Effect.printExecuting cmd :: r.trace, r.error⟩

/-- The loop body of `upload_file_to_instance`: look up the client
(`KeyError` escapes if absent) and transfer the file over SFTP. -/
def uploadLoop (src dst : String) : List Instance → IMState → StepResult
  | [], st => ⟨st, [], Option.none⟩
  | i :: rest, st =>
    match lookupClient st.sshClients i.id with
    | Option.none => ⟨st, [], some (IMError.keyErrorNoSession i.id)⟩
    | some _ =>
      let r := uploadLoop src dst rest st
      ⟨r.state, Effect.sftpPut i.id src dst :: r.trace, r.error⟩

/-- `upload_file_to_instance(source_file, destination_file, instances)`:
the destination is `os.path.join(self.home_directory, destination_file)`. -/
def upload_file_to_instance (st : IMState) (src dstFile : String) (p : InstParam) :
    StepResult :=
  match parseInstances st p with
  | Except.error e => ⟨st, [Effect.printParseError], some e⟩
  | Except.ok insts => uploadLoop src (pathJoin st.homeDirectory dstFile) insts st

/-- Outcome of the `create_security_group` + `authorize_ingress` try
block: either the group is created with some id, or a
`botocore.exceptions.ClientError` with message `msg` is raised. -/
inductive SGResult where
  | created (gid : String)
  | clientError (msg : String)
deriving DecidableEq, Repr

/-- AWS's behaviour for the security-group calls: the result of the
creation attempt, and what `describe_security_groups(GroupNames=[n])`
reports as the existing group's id. -/
structure SGProvider where
  createResult : SGResult
  describeByName : String → String

/-- `create_security_group()`: on success record the new group id and
set `security_group_created = True`; on a `ClientError` print a
message, and if the error text mentions `InvalidGroup.Duplicate`, look
up the existing group by name and adopt its id (ownership flag
untouched); any other `ClientError` is re-raised. -/
def create_security_group (st : IMState) (prov : SGProvider) : StepResult :=
  match prov.createResult with
  | SGResult.created gid =>
    ⟨{ st with securityGroupIds := some [gid], securityGroupCreated := true },
     [Effect.createSGCall, Effect.authorizeIngressCall], Option.none⟩
  | SGResult.clientError msg =>
    if strContains msg "InvalidGroup.Duplicate" then
      ⟨{ st with securityGroupIds := some [prov.describeByName "IMPAQ_HPC_TM"] },
       [Effect.createSGCall, Effect.printSGAlreadyCreated,
        Effect.describeSGCall "IMPAQ_HPC_TM"], Option.none⟩
    else
      ⟨st, [Effect.createSGCall, Effect.printSGAlreadyCreated],
       some (IMError.clientError msg)⟩

/-- AWS's behaviour for `delete_security_group(GroupId=gid)`: `none`
means success, `some msg` a `ClientError` (caught and printed). -/
abbrev DeleteOracle := String → Option String

/-- The loop of `delete_security_group` over the stored group ids. -/
def deleteSGLoop (del : DeleteOracle) : List String → List Effect
  | [] => []
  | gid :: rest =>
    (Effect.deleteSGCall gid ::
      match del gid with
      | Option.none => [Effect.printSGDeleted gid]
      | some msg => [Effect.printClientErr msg]) ++ deleteSGLoop del rest

/-- `delete_security_group()`: deletes each stored group id, printing
the `ClientError` if one is raised.  (Called with
`security_group_ids = None` the Python code would fail iterating
`None`; the model returns the state unchanged with an empty trace only
for `some` ids, and is only invoked when ids are set.) -/
def delete_security_group (st : IMState) (del : DeleteOracle) : StepResult :=
  match st.securityGroupIds with
  | Option.none => ⟨st, [], Option.none⟩
  | some gids => ⟨st, deleteSGLoop del gids, Option.none⟩

/-- `cleanup()` (registered with `atexit`): terminate all tracked
instances, waiting for termination exactly when this manager created
the security group, then delete the group exactly in that case. -/
def cleanup (st : IMState) (del : DeleteOracle) : StepResult :=
  let r := terminate_instances st InstParam.none st.securityGroupCreated
  match r.error with
  | some _ => r
  | Option.none =>
    if st.securityGroupCreated then
      let r2 := delete_security_group r.state del
      ⟨r2.state, r.trace ++ r2.trace, r2.error⟩
    else r

/-- Effects that touch an instance or the provider (everything except
local `print` and `time.sleep`). -/
def Effect.isExternal : Effect → Bool
  | printTerminating _ => false
  | printTerminated _ => false
  | printStarting _ => false
  | printRunning _ => false
  | printStopped _ => false
  | printNoConnWarning _ => false
  | printRetryDiag _ _ _ => false
  | sleep _ => false
  | printExecuting _ => false
  | printLine _ => false
  | printSGAlreadyCreated => false
  | printSGDeleted _ => false
  | printClientErr _ => false
  | printParseError => false
  | _ => true

/-! ## Comparison patterns written from the spec's description -/

/-- The attempt/diagnostic/delay pattern the spec describes for a
uniformly failing connect sequence: with `n` attempts remaining and the
current attempt numbered `a`, every attempt is made, and every attempt
but the last is followed by a printed diagnostic and a fixed
10-time-unit delay. -/
def specFailPattern (iid : Nat) (ip : String) (k : ConnErrorKind) : Nat → Nat → List Effect
  | 0, _ => []
  | n + 1, a =>
    if n = 0 then [Effect.connectAttempt iid a]
    else
      Effect.connectAttempt iid a :: Effect.printRetryDiag k a ip ::
        Effect.sleep 10 :: specFailPattern iid ip k n (a + 1)

/-- Number of connection attempts recorded for instance `iid` in a trace. -/
def countAttempts (t : List Effect) (iid : Nat) : Nat :=
  (t.filter (fun e => match e with
    | Effect.connectAttempt j _ => decide (j = iid)
    | _ => false)).length

/-- The report the spec describes for `execute_command`: for each
instance in order, run the command, wait for its exit status, then
print the standard-output lines when the status is zero and the
standard-error lines otherwise. -/
def specExecReport (exec : ExecOracle) (cmd : String) : List Instance → List Effect
  | [] => []
  | i :: rest =>
    Effect.execCommand i.id cmd :: Effect.recvExitStatus i.id ::
      (((if (exec i.id cmd).exitStatus = 0 then (exec i.id cmd).stdoutLines
          else (exec i.id cmd).stderrLines).map Effect.printLine) ++
        specExecReport exec cmd rest)

/-! ## Helper lemmas about the dictionary operations -/

theorem lookupClient_cons (p : Nat × Nat) (l : List (Nat × Nat)) (k : Nat) :
    lookupClient (p :: l) k = if p.1 = k then some p.2 else lookupClient l k := by
  by_cases h : p.1 = k <;> simp [lookupClient, List.find?, h]

theorem lookup_setClient_self (l : List (Nat × Nat)) (k v : Nat) :
    lookupClient (setClient l k v) k = some v := by
  induction l with
  | nil => simp [setClient, lookupClient, List.find?]
  | cons p rest ih =>
    by_cases h : p.1 = k
    · simp [setClient, h, lookupClient_cons]
    · simp [setClient, h, lookupClient_cons, ih]

theorem hasKey_setClient_self (l : List (Nat × Nat)) (k v : Nat) :
    hasKey (setClient l k v) k = true := by
  induction l with
  | nil => simp [setClient, hasKey]
  | cons p rest ih =>
    by_cases h : p.1 = k
    · simp [setClient, h, hasKey]
    · simp [setClient, h, hasKey] at ih ⊢
      exact ih

theorem hasKey_setClient_mono (l : List (Nat × Nat)) (k v k' : Nat)
    (h : hasKey l k' = true) : hasKey (setClient l k v) k' = true := by
  induction l with
  | nil => simp [hasKey] at h
  | cons p rest ih =>
    by_cases hp : p.1 = k
    · simp [setClient, hp, hasKey] at h ⊢
      rcases h with h | h
      · subst hp; exact Or.inl h
      · exact Or.inr h
    · simp [setClient, hp, hasKey] at h ⊢
      rcases h with h | h
      · exact Or.inl h
      · exact Or.inr (by simpa [hasKey] using ih (by simpa [hasKey] using h))

theorem countKey_cons (p : Nat × Nat) (l : List (Nat × Nat)) (k : Nat) :
    countKey (p :: l) k = (if p.1 = k then 1 else 0) + countKey l k := by
  by_cases h : p.1 = k
  · simp [countKey, List.filter, h]
    omega
  · simp [countKey, List.filter, h]

theorem countKey_setClient_one (l : List (Nat × Nat)) (k v : Nat)
    (h : countKey l k = 1) : countKey (setClient l k v) k = 1 := by
  induction l with
  | nil => simp [countKey] at h
  | cons p rest ih =>
    by_cases hp : p.1 = k
    · rw [countKey_cons, if_pos hp] at h
      simp only [setClient, if_pos hp]
      have hk : ((k, v) : Nat × Nat).1 = k := rfl
      rw [countKey_cons, if_pos hk]
      omega
    · rw [countKey_cons, if_neg hp] at h
      simp only [setClient, if_neg hp]
      rw [countKey_cons, if_neg hp]
      simp only [Nat.zero_add] at h ⊢
      exact ih h

/-! ## Helper lemmas about traces and the per-instance loops -/

theorem mem_traceFor (f : Instance → List Effect) (l : List Instance) (e : Effect) :
    e ∈ traceFor f l ↔ ∃ i ∈ l, e ∈ f i := by
  induction l with
  | nil => simp [traceFor]
  | cons i rest ih => simp [traceFor, ih]

theorem closeLoop_error (s : Bool) (l : List Instance) (st : IMState) :
    (closeLoop s l st).error = Option.none := by
  induction l generalizing st with
  | nil => rfl
  | cons i rest ih =>
    cases h : lookupClient st.sshClients i.id <;> simp [closeLoop, h, ih]

theorem closeLoop_sshClients (s : Bool) (l : List Instance) (st : IMState) :
    (closeLoop s l st).state.sshClients = st.sshClients := by
  induction l generalizing st with
  | nil => rfl
  | cons i rest ih =>
    cases h : lookupClient st.sshClients i.id <;> simp [closeLoop, h, ih]

theorem closeLoop_closed_mono (s : Bool) (l : List Instance) (st : IMState) (h : Nat)
    (hmem : h ∈ st.closedHandles) : h ∈ (closeLoop s l st).state.closedHandles := by
  induction l generalizing st with
  | nil => exact hmem
  | cons i rest ih =>
    cases hl : lookupClient st.sshClients i.id with
    | none => simpa [closeLoop, hl] using ih st hmem
    | some h' => simpa [closeLoop, hl] using ih _ (List.mem_cons_of_mem _ hmem)

theorem closeLoop_closes (s : Bool) (l : List Instance) (st : IMState)
    (i : Instance) (h : Nat) (hi : i ∈ l)
    (hl : lookupClient st.sshClients i.id = some h) :
    h ∈ (closeLoop s l st).state.closedHandles := by
  induction l generalizing st with
  | nil => simp at hi
  | cons j rest ih =>
    rcases List.mem_cons.mp hi with rfl | hi'
    · simp only [closeLoop, hl]
      exact closeLoop_closed_mono s rest _ h (List.mem_cons_self _ _)
    · cases hj : lookupClient st.sshClients j.id with
      | none =>
        simp only [closeLoop, hj]
        exact ih st hi' hl
      | some h' =>
        simp only [closeLoop, hj]
        exact ih { st with closedHandles := h' :: st.closedHandles } hi' hl

theorem closeLoop_suppress_trace (l : List Instance) (st : IMState) (e : Effect)
    (he : e ∈ (closeLoop true l st).trace) : ∃ h, e = Effect.closeClient h := by
  induction l generalizing st with
  | nil => simp [closeLoop] at he
  | cons i rest ih =>
    cases hl : lookupClient st.sshClients i.id with
    | none =>
      simp [closeLoop, hl] at he
      exact ih _ he
    | some h =>
      simp [closeLoop, hl] at he
      rcases he with rfl | he'
      · exact ⟨h, rfl⟩
      · exact ih _ he'

/-! ## Helper lemmas about `__parse_instances` -/

theorem parse_none_eq (st : IMState) :
    parseInstances st InstParam.none = Except.ok st.instances := rfl

theorem parse_single_eq (st : IMState) (i : Instance) :
    parseInstances st (InstParam.single i) = parseInstances st (InstParam.list [i]) := by
  by_cases h : i ∈ st.instances <;> simp [parseInstances, h]

theorem parse_ok_mem {st : IMState} {p : InstParam} {insts : List Instance}
    (hp : parseInstances st p = Except.ok insts) : ∀ i ∈ insts, i ∈ st.instances := by
  cases p with
  | none =>
    simp [parseInstances] at hp
    subst hp; intro i hi; exact hi
  | single i =>
    by_cases h : i ∈ st.instances
    · simp [parseInstances, h] at hp
      subst hp; intro j hj
      rcases List.mem_singleton.mp hj with rfl
      exact h
    · simp [parseInstances, h] at hp
  | list l =>
    by_cases h : l.all (fun i => decide (i ∈ st.instances)) = true
    · simp only [parseInstances, h, if_true, Except.ok.injEq] at hp
      subst hp
      intro i hi
      exact of_decide_eq_true (List.all_eq_true.mp h i hi)
    · simp only [parseInstances, if_neg h] at hp
      exact absurd hp (by simp)

theorem parse_list_ok {st : IMState} {l : List Instance}
    (h : ∀ i ∈ l, i ∈ st.instances) :
    parseInstances st (InstParam.list l) = Except.ok l := by
  have hall : l.all (fun i => decide (i ∈ st.instances)) = true := by
    simp [List.all_eq_true]
    exact h
  simp [parseInstances, hall]

/-! ## Helper lemmas about the connect loops -/

theorem connectLoop_fail_eq (oracle : ConnOracle) (inst : Instance) (k : ConnErrorKind)
    (hfail : ∀ a, oracle inst.id a = ConnOutcome.fail k) :
    ∀ n a st, connectLoop oracle inst n a st =
      ⟨{ st with nextHandle := st.nextHandle + n },
       specFailPattern inst.id inst.publicIp k n a,
       if n = 0 then Option.none else some (IMError.connError k)⟩ := by
  intro n
  induction n with
  | zero => intro a st; rfl
  | succ m ih =>
    intro a st
    by_cases hm : m = 0
    · subst hm
      simp [connectLoop, hfail, specFailPattern]
    · have harith : st.nextHandle + 1 + m = st.nextHandle + (m + 1) := by omega
      simp only [connectLoop, hfail, ih (a + 1), if_neg hm]
      simp only [specFailPattern, if_neg hm]
      simp [harith]

theorem countAttempts_specFailPattern (iid : Nat) (ip : String) (k : ConnErrorKind) :
    ∀ n a, countAttempts (specFailPattern iid ip k n a) iid = n := by
  intro n
  induction n with
  | zero => intro a; rfl
  | succ m ih =>
    intro a
    by_cases hm : m = 0
    · subst hm; simp [specFailPattern, countAttempts, List.filter]
    · simp [specFailPattern, hm, countAttempts, List.filter] at ih ⊢
      exact ih (a + 1)

theorem specFailPattern_attempt_mem (iid : Nat) (ip : String) (k : ConnErrorKind) :
    ∀ n a j a', Effect.connectAttempt j a' ∈ specFailPattern iid ip k n a → j = iid := by
  intro n
  induction n with
  | zero => intro a j a' h; simp [specFailPattern] at h
  | succ m ih =>
    intro a j a' h
    by_cases hm : m = 0
    · subst hm
      simp [specFailPattern] at h
      exact h.1
    · simp [specFailPattern, hm] at h
      rcases h with ⟨h, _⟩ | h
      · exact h
      · exact ih (a + 1) j a' h

theorem connectLoop_keys_mono (oracle : ConnOracle) (inst : Instance) (kk : Nat) :
    ∀ n a st, hasKey st.sshClients kk = true →
      hasKey (connectLoop oracle inst n a st).state.sshClients kk = true := by
  intro n
  induction n with
  | zero => intro a st h; exact h
  | succ m ih =>
    intro a st h
    cases ho : oracle inst.id a with
    | success =>
      cases hl : lookupClient st.sshClients inst.id with
      | none => simpa [connectLoop, ho, hl] using hasKey_setClient_mono _ _ _ _ h
      | some old => simpa [connectLoop, ho, hl] using hasKey_setClient_mono _ _ _ _ h
    | fail k =>
      by_cases hm : m = 0
      · subst hm; simpa [connectLoop, ho] using h
      · simp only [connectLoop, ho, if_neg hm]
        exact ih (a + 1) { st with nextHandle := st.nextHandle + 1 } h

theorem connectList_keys_mono (oracle : ConnOracle) (maxA : Nat) (kk : Nat) :
    ∀ l st, hasKey st.sshClients kk = true →
      hasKey (connectList oracle maxA l st).state.sshClients kk = true := by
  intro l
  induction l with
  | nil => intro st h; exact h
  | cons i rest ih =>
    intro st h
    have h1 := connectLoop_keys_mono oracle i kk maxA 1 st h
    cases he : (connectLoop oracle i maxA 1 st).error with
    | none => simpa [connectList, he] using ih _ h1
    | some e => simpa [connectList, he] using h1

theorem execLoop_all_sessions (exec : ExecOracle) (cmd : String) :
    ∀ l st, (∀ i ∈ l, (lookupClient st.sshClients i.id).isSome = true) →
      execLoop exec cmd l st = ⟨st, specExecReport exec cmd l, Option.none⟩ := by
  intro l
  induction l with
  | nil => intro st _; rfl
  | cons i rest ih =>
    intro st h
    cases hl : lookupClient st.sshClients i.id with
    | none => exact absurd (h i (List.mem_cons_self _ _)) (by simp [hl])
    | some c =>
      simp only [execLoop, hl, ih st (fun j hj => h j (List.mem_cons_of_mem _ hj))]
      simp [specExecReport]

theorem closeLoop_securityGroupIds (s : Bool) (l : List Instance) (st : IMState) :
    (closeLoop s l st).state.securityGroupIds = st.securityGroupIds := by
  induction l generalizing st with
  | nil => rfl
  | cons i rest ih =>
    cases h : lookupClient st.sshClients i.id <;> simp [closeLoop, h, ih]

theorem connectLoop_success1 (oracle : ConnOracle) (i : Instance) (m a : Nat) (st : IMState)
    (hs : oracle i.id a = ConnOutcome.success) :
    (connectLoop oracle i (m + 1) a st).error = Option.none ∧
    (connectLoop oracle i (m + 1) a st).state.sshClients =
      setClient st.sshClients i.id st.nextHandle := by
  cases hl : lookupClient st.sshClients i.id <;> simp [connectLoop, hs, hl]

theorem terminate_none_eq (st : IMState) (w : Bool) :
    terminate_instances st InstParam.none w =
      ⟨(closeLoop true st.instances st).state,
       traceFor (fun i => [Effect.printTerminating i.id, Effect.terminateCall i.id])
           st.instances ++
         (if w then
             traceFor (fun i => [Effect.waitUntilTerminated i.id, Effect.printTerminated i.id])
               st.instances
           else []) ++
         (closeLoop true st.instances st).trace,
       (closeLoop true st.instances st).error⟩ := by
  have hplist : parseInstances st (InstParam.list st.instances) = Except.ok st.instances :=
    parse_list_ok (fun _ hi => hi)
  simp only [terminate_instances, parse_none_eq, close_instance_connections, hplist]

theorem connectList_pre_fail (oracle : ConnOracle) (k : ConnErrorKind) (m : Nat)
    (j : Instance) (post : List Instance)
    (hj : ∀ a, oracle j.id a = ConnOutcome.fail k) :
    ∀ pre st, (∀ i ∈ pre, oracle i.id 1 = ConnOutcome.success) →
      (connectList oracle (m + 1) (pre ++ j :: post) st).error =
        some (IMError.connError k) ∧
      ∀ i ∈ pre,
        hasKey (connectList oracle (m + 1) (pre ++ j :: post) st).state.sshClients i.id =
          true := by
  intro pre
  induction pre with
  | nil =>
    intro st _
    simp only [List.nil_append, connectList,
      connectLoop_fail_eq oracle j k hj (m + 1) 1 st]
    simp
  | cons i rest ih =>
    intro st hpre
    have hs : oracle i.id 1 = ConnOutcome.success := hpre i (List.mem_cons_self _ _)
    obtain ⟨he1, hssh1⟩ := connectLoop_success1 oracle i m 1 st hs
    have ihr := ih (connectLoop oracle i (m + 1) 1 st).state
      (fun x hx => hpre x (List.mem_cons_of_mem _ hx))
    simp only [List.cons_append, connectList, he1]
    refine ⟨by simpa using ihr.1, ?_⟩
    intro x hx
    rcases List.mem_cons.mp hx with rfl | hx'
    · apply connectList_keys_mono
      rw [hssh1]
      exact hasKey_setClient_self _ _ _
    · simpa using ihr.2 x hx'

/-! ## Claims -/

/-- C9: For every subset-taking operation, passing an empty collection
as the subset passes validation, raises no error, and performs no side
effect — no lifecycle call, no session change, no remote operation (for
`execute_command` only the local `Executing:` line is printed).  The
empty subset is not interpreted as "all tracked instances"; only the
absent (`None`) subset is. -/
theorem C9_empty_subset_is_noop (st : IMState) (oracle : ConnOracle) (execO : ExecOracle)
    (maxA : Nat) (w sup : Bool) (cmd src dst : String) :
    parseInstances st (InstParam.list []) = Except.ok [] ∧
    parseInstances st InstParam.none = Except.ok st.instances ∧
    connect_to_instances st oracle (InstParam.list []) maxA = ⟨st, [], Option.none⟩ ∧
    close_instance_connections st (InstParam.list []) sup = ⟨st, [], Option.none⟩ ∧
    terminate_instances st (InstParam.list []) w = ⟨st, [], Option.none⟩ ∧
    start_instances st (InstParam.list []) w = ⟨st, [], Option.none⟩ ∧
    stop_instances st (InstParam.list []) w = ⟨st, [], Option.none⟩ ∧
    execute_command st execO cmd (InstParam.list []) =
      ⟨st, [Effect.printExecuting cmd], Option.none⟩ ∧
    upload_file_to_instance st src dst (InstParam.list []) = ⟨st, [], Option.none⟩ := by
  have hp : parseInstances st (InstParam.list []) = Except.ok [] := by
    simp [parseInstances]
  refine ⟨hp, rfl, ?_, ?_, ?_, ?_, ?_, ?_, ?_⟩ <;>
    simp [connect_to_instances, close_instance_connections, terminate_instances,
      start_instances, stop_instances, execute_command, upload_file_to_instance,
      connectList, closeLoop, execLoop, uploadLoop, traceFor, hp]

/-- C3: Calling any per-instance operation with an instance not present
in the manager's tracked collection fails with the `TypeError` that the
spec names `UnknownInstanceError`, leaves the state unchanged, and
performs no side effect on any instance of that call (the trace is only
local prints); a bare instance is treated as a one-element collection,
and an absent subset means all tracked instances. -/
theorem C3_unknown_instance_rejected (st : IMState) (l : List Instance) (i : Instance)
    (oracle : ConnOracle) (execO : ExecOracle) (maxA : Nat) (w sup : Bool)
    (cmd src dst : String) (hin : i ∈ l) (hout : i ∉ st.instances) :
    parseInstances st (InstParam.list l) = Except.error IMError.typeErrorUnknownInstance ∧
    parseInstances st (InstParam.single i) = parseInstances st (InstParam.list [i]) ∧
    parseInstances st InstParam.none = Except.ok st.instances ∧
    connect_to_instances st oracle (InstParam.list l) maxA =
      ⟨st, [Effect.printParseError], some IMError.typeErrorUnknownInstance⟩ ∧
    close_instance_connections st (InstParam.list l) sup =
      ⟨st, [Effect.printParseError], some IMError.typeErrorUnknownInstance⟩ ∧
    terminate_instances st (InstParam.list l) w =
      ⟨st, [Effect.printParseError], some IMError.typeErrorUnknownInstance⟩ ∧
    start_instances st (InstParam.list l) w =
      ⟨st, [Effect.printParseError], some IMError.typeErrorUnknownInstance⟩ ∧
    stop_instances st (InstParam.list l) w =
      ⟨st, [Effect.printParseError], some IMError.typeErrorUnknownInstance⟩ ∧
    execute_command st execO cmd (InstParam.list l) =
      ⟨st, [Effect.printExecuting cmd, Effect.printParseError],
       some IMError.typeErrorUnknownInstance⟩ ∧
    upload_file_to_instance st src dst (InstParam.list l) =
      ⟨st, [Effect.printParseError], some IMError.typeErrorUnknownInstance⟩ ∧
    Effect.printParseError.isExternal = false ∧
    (Effect.printExecuting cmd).isExternal = false := by
  have hall : l.all (fun i => decide (i ∈ st.instances)) ≠ true := by
    intro hcontra
    exact hout (of_decide_eq_true (List.all_eq_true.mp hcontra i hin))
  have hp : parseInstances st (InstParam.list l) =
      Except.error IMError.typeErrorUnknownInstance := by
    simp [parseInstances, hall]
  refine ⟨hp, parse_single_eq st i, rfl, ?_, ?_, ?_, ?_, ?_, ?_, ?_, rfl, rfl⟩ <;>
    simp [connect_to_instances, close_instance_connections, terminate_instances,
      start_instances, stop_instances, execute_command, upload_file_to_instance, hp]

/-- C3 witness: a manager tracking no instances rejects the subset
`[instance 1]` in every operation with no state change. -/
theorem C3_witness :
    terminate_instances ⟨[], [], [], Option.none, false, "/home/ubuntu/", 0⟩
        (InstParam.list [⟨1, "ip"⟩]) false =
      ⟨⟨[], [], [], Option.none, false, "/home/ubuntu/", 0⟩,
       [Effect.printParseError], some IMError.typeErrorUnknownInstance⟩ ∧
    connect_to_instances ⟨[], [], [], Option.none, false, "/home/ubuntu/", 0⟩
        (fun _ _ => ConnOutcome.success) (InstParam.list [⟨1, "ip"⟩]) 10 =
      ⟨⟨[], [], [], Option.none, false, "/home/ubuntu/", 0⟩,
       [Effect.printParseError], some IMError.typeErrorUnknownInstance⟩ := by
  have h := C3_unknown_instance_rejected
    ⟨[], [], [], Option.none, false, "/home/ubuntu/", 0⟩ [⟨1, "ip"⟩] ⟨1, "ip"⟩
    (fun _ _ => ConnOutcome.success) (fun _ _ => ⟨0, [], []⟩) 10 false false
    "c" "s" "d" (by decide) (by decide)
  exact ⟨h.2.2.2.2.2.1, h.2.2.2.1⟩

/-- C1 counterexample: the claim says that after `terminate_instances(S)`
the session mapping contains no entry keyed by the id of any instance
in S.  With one tracked instance (id 1) holding client handle 5,
terminating all instances leaves the entry `(1, 5)` in the mapping:
`close_instance_connections` closes the client but never deletes the
dictionary entry. -/
theorem C1_counterexample :
    lookupClient
      ((terminate_instances ⟨[⟨1, "ip"⟩], [(1, 5)], [], Option.none, false, "/home/ubuntu/", 6⟩
          InstParam.none false).state).sshClients 1 = some 5 ∧
    (5 : Nat) ∈
      (terminate_instances ⟨[⟨1, "ip"⟩], [(1, 5)], [], Option.none, false, "/home/ubuntu/", 6⟩
          InstParam.none false).state.closedHandles := by
  constructor
  · rfl
  · decide

/-- C1 amended: after `terminate_instances(S)` the open session of every
instance in S has been closed, with warnings suppressed (no
missing-session warning is printed), regardless of the
`wait_until_terminated` flag, and no exception escapes — but the session
mapping is left unchanged: the entries for the instances in S are NOT
removed. -/
theorem C1_terminate_closes_sessions_but_keeps_entries
    (st : IMState) (p : InstParam) (w : Bool) (insts : List Instance)
    (hp : parseInstances st p = Except.ok insts) :
    (terminate_instances st p w).state.sshClients = st.sshClients ∧
    (∀ i ∈ insts, ∀ h, lookupClient st.sshClients i.id = some h →
        h ∈ (terminate_instances st p w).state.closedHandles) ∧
    (∀ j, Effect.printNoConnWarning j ∉ (terminate_instances st p w).trace) ∧
    (terminate_instances st p w).error = Option.none := by
  have hsub := parse_ok_mem hp
  have hplist : parseInstances st (InstParam.list insts) = Except.ok insts :=
    parse_list_ok hsub
  simp only [terminate_instances, hp, close_instance_connections, hplist]
  refine ⟨closeLoop_sshClients _ _ _, ?_, ?_, closeLoop_error _ _ _⟩
  · intro i hi h hl
    exact closeLoop_closes true insts st i h hi hl
  · intro j hj
    simp only [List.mem_append] at hj
    rcases hj with (hj | hj) | hj
    · rcases (mem_traceFor _ _ _).mp hj with ⟨i, _, hmem⟩
      simp at hmem
    · by_cases hw : w
      · simp only [if_pos hw] at hj
        rcases (mem_traceFor _ _ _).mp hj with ⟨i, _, hmem⟩
        simp at hmem
      · simp [if_neg hw] at hj
    · rcases closeLoop_suppress_trace insts st _ hj with ⟨h, hh⟩
      simp at hh

/-- C1 witness: concrete run of the amended claim — one tracked
instance with client handle 5; after termination the mapping is
unchanged and handle 5 has been closed. -/
theorem C1_witness :
    (terminate_instances ⟨[⟨1, "ip"⟩], [(1, 5)], [], Option.none, false, "/home/ubuntu/", 6⟩
        InstParam.none true).state.sshClients = [(1, 5)] ∧
    (5 : Nat) ∈
      (terminate_instances ⟨[⟨1, "ip"⟩], [(1, 5)], [], Option.none, false, "/home/ubuntu/", 6⟩
          InstParam.none true).state.closedHandles ∧
    (terminate_instances ⟨[⟨1, "ip"⟩], [(1, 5)], [], Option.none, false, "/home/ubuntu/", 6⟩
        InstParam.none true).error = Option.none := by
  have h := C1_terminate_closes_sessions_but_keeps_entries
    ⟨[⟨1, "ip"⟩], [(1, 5)], [], Option.none, false, "/home/ubuntu/", 6⟩
    InstParam.none true [⟨1, "ip"⟩] rfl
  exact ⟨h.1, h.2.1 ⟨1, "ip"⟩ (by decide) 5 (by decide), h.2.2.2⟩

/-- C2 counterexample: the claim says a fatal connect failure on one
instance does not abort the loop over the remaining instances.  With
two tracked instances, `max_attempts = 1`, and every attempt timing
out, the call raises after the first instance and records zero
connection attempts for the second instance. -/
theorem C2_counterexample :
    (connect_to_instances ⟨[⟨1, "a"⟩, ⟨2, "b"⟩], [], [], Option.none, false, "/home/ubuntu/", 0⟩
        (fun _ _ => ConnOutcome.fail ConnErrorKind.timeout) InstParam.none 1).error =
      some (IMError.connError ConnErrorKind.timeout) ∧
    countAttempts
      (connect_to_instances ⟨[⟨1, "a"⟩, ⟨2, "b"⟩], [], [], Option.none, false, "/home/ubuntu/", 0⟩
        (fun _ _ => ConnOutcome.fail ConnErrorKind.timeout) InstParam.none 1).trace 2 = 0 ∧
    countAttempts
      (connect_to_instances ⟨[⟨1, "a"⟩, ⟨2, "b"⟩], [], [], Option.none, false, "/home/ubuntu/", 0⟩
        (fun _ _ => ConnOutcome.fail ConnErrorKind.timeout) InstParam.none 1).trace 1 = 1 := by
  refine ⟨rfl, rfl, rfl⟩

/-- C2 amended: exhausting `max_attempts` on one instance re-raises the
last connection error, and this aborts `connect_to_instances`: the
trace contains connection attempts only for that instance — none are
made for the instances after it in the subset. -/
theorem C2_exhausted_retries_abort_remaining
    (st : IMState) (oracle : ConnOracle) (p : InstParam) (i : Instance)
    (post : List Instance) (k : ConnErrorKind) (maxA : Nat)
    (hp : parseInstances st p = Except.ok (i :: post))
    (hfail : ∀ a, oracle i.id a = ConnOutcome.fail k)
    (hm : 1 ≤ maxA) :
    (connect_to_instances st oracle p maxA).error = some (IMError.connError k) ∧
    ∀ j a, Effect.connectAttempt j a ∈ (connect_to_instances st oracle p maxA).trace →
      j = i.id := by
  obtain ⟨m, hmm⟩ : ∃ m, maxA = m + 1 := ⟨maxA - 1, by omega⟩
  subst hmm
  simp only [connect_to_instances, hp, connectList,
    connectLoop_fail_eq oracle i k hfail (m + 1) 1 st]
  simp only [Nat.succ_ne_zero, if_false]
  exact ⟨trivial, fun j a hja => specFailPattern_attempt_mem i.id i.publicIp k (m + 1) 1 j a hja⟩

/-- C2 witness: concrete run of the amended claim at two tracked
instances with `max_attempts = 1`. -/
theorem C2_witness :
    (connect_to_instances ⟨[⟨1, "a"⟩, ⟨2, "b"⟩], [], [], Option.none, false, "/home/ubuntu/", 0⟩
        (fun _ _ => ConnOutcome.fail ConnErrorKind.timeout) InstParam.none 1).error =
      some (IMError.connError ConnErrorKind.timeout) ∧
    (Effect.connectAttempt 2 1 ∈
        (connect_to_instances ⟨[⟨1, "a"⟩, ⟨2, "b"⟩], [], [], Option.none, false, "/home/ubuntu/", 0⟩
          (fun _ _ => ConnOutcome.fail ConnErrorKind.timeout) InstParam.none 1).trace →
      (2 : Nat) = 1) := by
  have h := C2_exhausted_retries_abort_remaining
    ⟨[⟨1, "a"⟩, ⟨2, "b"⟩], [], [], Option.none, false, "/home/ubuntu/", 0⟩
    (fun _ _ => ConnOutcome.fail ConnErrorKind.timeout) InstParam.none
    ⟨1, "a"⟩ [⟨2, "b"⟩] ConnErrorKind.timeout 1 rfl (fun _ => rfl) (by decide)
  exact ⟨h.1, fun hmem => h.2 2 1 hmem⟩

/-- C4: a connect sequence for one instance in which every attempt
fails with the same catchable error performs exactly `max_attempts`
connection attempts — the trace is exactly the pattern in which every
attempt but the last is followed by a printed diagnostic and a fixed
10-time-unit delay — and then re-raises the error of the final
attempt. -/
theorem C4_retry_bound_exact (st : IMState) (oracle : ConnOracle) (p : InstParam)
    (i : Instance) (k : ConnErrorKind) (maxA : Nat)
    (hp : parseInstances st p = Except.ok [i])
    (hfail : ∀ a, oracle i.id a = ConnOutcome.fail k)
    (hm : 1 ≤ maxA) :
    (connect_to_instances st oracle p maxA).trace =
      specFailPattern i.id i.publicIp k maxA 1 ∧
    countAttempts (connect_to_instances st oracle p maxA).trace i.id = maxA ∧
    (connect_to_instances st oracle p maxA).error = some (IMError.connError k) := by
  obtain ⟨m, hmm⟩ : ∃ m, maxA = m + 1 := ⟨maxA - 1, by omega⟩
  subst hmm
  simp only [connect_to_instances, hp, connectList,
    connectLoop_fail_eq oracle i k hfail (m + 1) 1 st]
  simp only [Nat.succ_ne_zero, if_false]
  exact ⟨trivial, countAttempts_specFailPattern i.id i.publicIp k (m + 1) 1, trivial⟩

/-- C4 witness: with `max_attempts = 3` and every attempt timing out,
the run makes exactly 3 attempts with a diagnostic and a 10-unit delay
between consecutive attempts, then raises the timeout. -/
theorem C4_witness :
    (connect_to_instances ⟨[⟨1, "ip1"⟩], [], [], Option.none, false, "/home/ubuntu/", 0⟩
        (fun _ _ => ConnOutcome.fail ConnErrorKind.timeout) InstParam.none 3).trace =
      [Effect.connectAttempt 1 1, Effect.printRetryDiag ConnErrorKind.timeout 1 "ip1",
       Effect.sleep 10, Effect.connectAttempt 1 2,
       Effect.printRetryDiag ConnErrorKind.timeout 2 "ip1", Effect.sleep 10,
       Effect.connectAttempt 1 3] ∧
    countAttempts
      (connect_to_instances ⟨[⟨1, "ip1"⟩], [], [], Option.none, false, "/home/ubuntu/", 0⟩
        (fun _ _ => ConnOutcome.fail ConnErrorKind.timeout) InstParam.none 3).trace 1 = 3 ∧
    (connect_to_instances ⟨[⟨1, "ip1"⟩], [], [], Option.none, false, "/home/ubuntu/", 0⟩
        (fun _ _ => ConnOutcome.fail ConnErrorKind.timeout) InstParam.none 3).error =
      some (IMError.connError ConnErrorKind.timeout) := by
  have h := C4_retry_bound_exact
    ⟨[⟨1, "ip1"⟩], [], [], Option.none, false, "/home/ubuntu/", 0⟩
    (fun _ _ => ConnOutcome.fail ConnErrorKind.timeout) InstParam.none
    ⟨1, "ip1"⟩ ConnErrorKind.timeout 3 rfl (fun _ => rfl) (by decide)
  exact ⟨by rw [h.1]; rfl, h.2.1, h.2.2⟩

/-- C5: when the creation call fails with the provider's duplicate-rule-set
error (`InvalidGroup.Duplicate` occurs in the error text), the existing
rule set is looked up by name and its id recorded, with the ownership
flag left unchanged; two sequential calls where the second reports
duplicate resolve to the same identifier, with ownership set by the
first (creating) call; any other creation failure is re-raised with the
state unchanged. -/
theorem C5_duplicate_security_group (st : IMState) (msg msg2 g : String)
    (dsc dsc2 : String → String)
    (hdup : strContains msg "InvalidGroup.Duplicate" = true)
    (hnodup : strContains msg2 "InvalidGroup.Duplicate" = false)
    (hg : dsc2 "IMPAQ_HPC_TM" = g) :
    create_security_group st ⟨SGResult.clientError msg, dsc⟩ =
      ⟨{ st with securityGroupIds := some [dsc "IMPAQ_HPC_TM"] },
       [Effect.createSGCall, Effect.printSGAlreadyCreated,
        Effect.describeSGCall "IMPAQ_HPC_TM"], Option.none⟩ ∧
    (create_security_group st ⟨SGResult.clientError msg, dsc⟩).state.securityGroupCreated =
      st.securityGroupCreated ∧
    (create_security_group st ⟨SGResult.created g, dsc⟩).state.securityGroupIds =
      some [g] ∧
    (create_security_group st ⟨SGResult.created g, dsc⟩).state.securityGroupCreated =
      true ∧
    (create_security_group (create_security_group st ⟨SGResult.created g, dsc⟩).state
        ⟨SGResult.clientError msg, dsc2⟩).state.securityGroupIds = some [g] ∧
    (create_security_group (create_security_group st ⟨SGResult.created g, dsc⟩).state
        ⟨SGResult.clientError msg, dsc2⟩).state.securityGroupCreated = true ∧
    (create_security_group (create_security_group st ⟨SGResult.created g, dsc⟩).state
        ⟨SGResult.clientError msg, dsc2⟩).error = Option.none ∧
    create_security_group st ⟨SGResult.clientError msg2, dsc⟩ =
      ⟨st, [Effect.createSGCall, Effect.printSGAlreadyCreated],
       some (IMError.clientError msg2)⟩ := by
  refine ⟨?_, ?_, ?_, ?_, ?_, ?_, ?_, ?_⟩ <;>
    simp [create_security_group, hdup, hnodup, hg]

/-- C5 witness: concrete providers — the first call creates `sg-1`, the
second reports the duplicate error and resolves to the same id. -/
theorem C5_witness :
    (create_security_group
        (create_security_group ⟨[], [], [], Option.none, false, "/home/ubuntu/", 0⟩
          ⟨SGResult.created "sg-1", fun _ => "sg-1"⟩).state
        ⟨SGResult.clientError "An error occurred InvalidGroup.Duplicate: exists",
         fun _ => "sg-1"⟩).state.securityGroupIds = some ["sg-1"] ∧
    (create_security_group
        (create_security_group ⟨[], [], [], Option.none, false, "/home/ubuntu/", 0⟩
          ⟨SGResult.created "sg-1", fun _ => "sg-1"⟩).state
        ⟨SGResult.clientError "An error occurred InvalidGroup.Duplicate: exists",
         fun _ => "sg-1"⟩).state.securityGroupCreated = true ∧
    create_security_group ⟨[], [], [], Option.none, false, "/home/ubuntu/", 0⟩
        ⟨SGResult.clientError "boom", fun _ => "sg-1"⟩ =
      ⟨⟨[], [], [], Option.none, false, "/home/ubuntu/", 0⟩,
       [Effect.createSGCall, Effect.printSGAlreadyCreated],
       some (IMError.clientError "boom")⟩ := by
  have h := C5_duplicate_security_group ⟨[], [], [], Option.none, false, "/home/ubuntu/", 0⟩
    "An error occurred InvalidGroup.Duplicate: exists" "boom" "sg-1"
    (fun _ => "sg-1") (fun _ => "sg-1") (by decide) (by decide) rfl
  exact ⟨h.2.2.2.2.1, h.2.2.2.2.2.1, h.2.2.2.2.2.2.2⟩

/-- C7: a successful reconnect to an instance that already has exactly
one tracked session closes the old transport handle (the close is in
the trace right after the connect, before the mapping is updated) and
replaces it, leaving exactly one tracked session for that instance id,
mapped to the freshly allocated handle. -/
theorem C7_reconnect_replaces_session
    (st : IMState) (oracle : ConnOracle) (p : InstParam) (i : Instance)
    (h : Nat) (maxA : Nat)
    (hp : parseInstances st p = Except.ok [i])
    (hs : oracle i.id 1 = ConnOutcome.success)
    (hold : lookupClient st.sshClients i.id = some h)
    (hcount : countKey st.sshClients i.id = 1)
    (hm : 1 ≤ maxA) :
    (connect_to_instances st oracle p maxA).error = Option.none ∧
    (connect_to_instances st oracle p maxA).trace =
      [Effect.connectAttempt i.id 1, Effect.closeClient h] ∧
    h ∈ (connect_to_instances st oracle p maxA).state.closedHandles ∧
    lookupClient (connect_to_instances st oracle p maxA).state.sshClients i.id =
      some st.nextHandle ∧
    countKey (connect_to_instances st oracle p maxA).state.sshClients i.id = 1 := by
  obtain ⟨m, hmm⟩ : ∃ m, maxA = m + 1 := ⟨maxA - 1, by omega⟩
  subst hmm
  simp only [connect_to_instances, hp, connectList, connectLoop, hs, hold]
  refine ⟨by simp, by simp, by simp, ?_, ?_⟩
  · simpa using lookup_setClient_self st.sshClients i.id st.nextHandle
  · simpa using countKey_setClient_one st.sshClients i.id st.nextHandle hcount

/-- C7 witness: instance 1 with old handle 5 and one tracked session;
after reconnecting, handle 5 is closed and the single tracked session
maps to the fresh handle 6. -/
theorem C7_witness :
    (connect_to_instances ⟨[⟨1, "ip"⟩], [(1, 5)], [], Option.none, false, "/home/ubuntu/", 6⟩
        (fun _ _ => ConnOutcome.success) InstParam.none 10).trace =
      [Effect.connectAttempt 1 1, Effect.closeClient 5] ∧
    (5 : Nat) ∈
      (connect_to_instances ⟨[⟨1, "ip"⟩], [(1, 5)], [], Option.none, false, "/home/ubuntu/", 6⟩
        (fun _ _ => ConnOutcome.success) InstParam.none 10).state.closedHandles ∧
    lookupClient
      (connect_to_instances ⟨[⟨1, "ip"⟩], [(1, 5)], [], Option.none, false, "/home/ubuntu/", 6⟩
        (fun _ _ => ConnOutcome.success) InstParam.none 10).state.sshClients 1 = some 6 ∧
    countKey
      (connect_to_instances ⟨[⟨1, "ip"⟩], [(1, 5)], [], Option.none, false, "/home/ubuntu/", 6⟩
        (fun _ _ => ConnOutcome.success) InstParam.none 10).state.sshClients 1 = 1 := by
  have h := C7_reconnect_replaces_session
    ⟨[⟨1, "ip"⟩], [(1, 5)], [], Option.none, false, "/home/ubuntu/", 6⟩
    (fun _ _ => ConnOutcome.success) InstParam.none ⟨1, "ip"⟩ 5 10
    rfl rfl rfl rfl (by decide)
  exact ⟨h.2.1, h.2.2.1, h.2.2.2.1, h.2.2.2.2⟩

/-- C8: over a subset whose instances all have live sessions,
`execute_command` raises nothing — whatever the remote exit statuses
are — and its trace is exactly: the `Executing:` line, then for each
instance the command run, the wait for its exit status, and the
standard-output lines when the status is zero or the standard-error
lines otherwise; an instance (tracked but) without a live session makes
the call fail with the `KeyError` the spec names `NoSessionError`. -/
theorem C8_execute_command_reports (st : IMState) (execO : ExecOracle) (cmd : String)
    (p : InstParam) (insts : List Instance) (j : Instance)
    (hp : parseInstances st p = Except.ok insts)
    (hsess : ∀ i ∈ insts, (lookupClient st.sshClients i.id).isSome = true)
    (hj : j ∈ st.instances)
    (hnosess : lookupClient st.sshClients j.id = Option.none) :
    execute_command st execO cmd p =
      ⟨st, Effect.printExecuting cmd :: specExecReport execO cmd insts, Option.none⟩ ∧
    (execute_command st execO cmd (InstParam.list [j])).error =
      some (IMError.keyErrorNoSession j.id) := by
  constructor
  · simp only [execute_command, hp, execLoop_all_sessions execO cmd insts st hsess]
  · have hpj : parseInstances st (InstParam.list [j]) = Except.ok [j] :=
      parse_list_ok (by simpa using hj)
    simp [execute_command, hpj, execLoop, hnosess]

/-- C8 witness: instance 1 has a session and its command exits with the
non-zero status 2, so its stderr line is printed and no exception is
raised; instance 2 is tracked but has no session, so the call on it
fails with the lookup error. -/
theorem C8_witness :
    execute_command
        ⟨[⟨1, "a"⟩, ⟨2, "b"⟩], [(1, 5)], [], Option.none, false, "/home/ubuntu/", 6⟩
        (fun _ _ => ⟨2, ["out"], ["err"]⟩) "ls" (InstParam.list [⟨1, "a"⟩]) =
      ⟨⟨[⟨1, "a"⟩, ⟨2, "b"⟩], [(1, 5)], [], Option.none, false, "/home/ubuntu/", 6⟩,
       [Effect.printExecuting "ls", Effect.execCommand 1 "ls", Effect.recvExitStatus 1,
        Effect.printLine "err"], Option.none⟩ ∧
    (execute_command
        ⟨[⟨1, "a"⟩, ⟨2, "b"⟩], [(1, 5)], [], Option.none, false, "/home/ubuntu/", 6⟩
        (fun _ _ => ⟨2, ["out"], ["err"]⟩) "ls" (InstParam.list [⟨2, "b"⟩])).error =
      some (IMError.keyErrorNoSession 2) := by
  have h := C8_execute_command_reports
    ⟨[⟨1, "a"⟩, ⟨2, "b"⟩], [(1, 5)], [], Option.none, false, "/home/ubuntu/", 6⟩
    (fun _ _ => ⟨2, ["out"], ["err"]⟩) "ls" (InstParam.list [⟨1, "a"⟩])
    [⟨1, "a"⟩] ⟨2, "b"⟩ rfl (by decide) (by decide) rfl
  exact ⟨by rw [h.1]; rfl, h.2⟩

/-- C10: `connect_to_instances` is not atomic over its subset — if the
instances before `j` in the subset all connect successfully and `j`
then exhausts its retries, the call raises the final error but the
session mapping still contains an entry for every instance connected
before `j` (nothing is rolled back or removed). -/
theorem C10_no_rollback_on_failure
    (st : IMState) (oracle : ConnOracle) (p : InstParam)
    (pre : List Instance) (j : Instance) (post : List Instance)
    (k : ConnErrorKind) (maxA : Nat)
    (hp : parseInstances st p = Except.ok (pre ++ j :: post))
    (hpre : ∀ i ∈ pre, oracle i.id 1 = ConnOutcome.success)
    (hj : ∀ a, oracle j.id a = ConnOutcome.fail k)
    (hm : 1 ≤ maxA) :
    (connect_to_instances st oracle p maxA).error = some (IMError.connError k) ∧
    ∀ i ∈ pre,
      hasKey (connect_to_instances st oracle p maxA).state.sshClients i.id = true := by
  obtain ⟨m, hmm⟩ : ∃ m, maxA = m + 1 := ⟨maxA - 1, by omega⟩
  subst hmm
  simp only [connect_to_instances, hp]
  exact connectList_pre_fail oracle k m j post hj pre st hpre

/-- C10 witness: instance 1 connects, instance 2 then fails every
attempt; the call raises but instance 1's session is still in the
mapping. -/
theorem C10_witness :
    (connect_to_instances ⟨[⟨1, "a"⟩, ⟨2, "b"⟩], [], [], Option.none, false, "/home/ubuntu/", 0⟩
        (fun iid _ => if iid = 1 then ConnOutcome.success else ConnOutcome.fail ConnErrorKind.timeout)
        InstParam.none 2).error = some (IMError.connError ConnErrorKind.timeout) ∧
    hasKey
      (connect_to_instances ⟨[⟨1, "a"⟩, ⟨2, "b"⟩], [], [], Option.none, false, "/home/ubuntu/", 0⟩
        (fun iid _ => if iid = 1 then ConnOutcome.success else ConnOutcome.fail ConnErrorKind.timeout)
        InstParam.none 2).state.sshClients 1 = true := by
  have h := C10_no_rollback_on_failure
    ⟨[⟨1, "a"⟩, ⟨2, "b"⟩], [], [], Option.none, false, "/home/ubuntu/", 0⟩
    (fun iid _ => if iid = 1 then ConnOutcome.success else ConnOutcome.fail ConnErrorKind.timeout)
    InstParam.none [⟨1, "a"⟩] ⟨2, "b"⟩ [] ConnErrorKind.timeout 2
    rfl (by decide) (fun _ => rfl) (by decide)
  exact ⟨h.1, h.2 ⟨1, "a"⟩ (by decide)⟩

/-- C6: the `atexit` cleanup terminates all still-tracked instances,
waits for their termination if and only if the manager's ownership flag
(`security_group_created`) is true, and deletes the security group if
and only if that flag is true. -/
theorem C6_cleanup_waits_and_deletes_iff_owned
    (st : IMState) (del : DeleteOracle) (g : String)
    (hid : st.securityGroupCreated = true → st.securityGroupIds = some [g]) :
    (∀ i ∈ st.instances, Effect.terminateCall i.id ∈ (cleanup st del).trace) ∧
    (st.securityGroupCreated = true →
      ∀ i ∈ st.instances, Effect.waitUntilTerminated i.id ∈ (cleanup st del).trace) ∧
    (st.securityGroupCreated = false →
      ∀ n, Effect.waitUntilTerminated n ∉ (cleanup st del).trace) ∧
    (st.securityGroupCreated = true → Effect.deleteSGCall g ∈ (cleanup st del).trace) ∧
    (st.securityGroupCreated = false →
      ∀ s, Effect.deleteSGCall s ∉ (cleanup st del).trace) := by
  cases hb : st.securityGroupCreated with
  | true =>
    have hsg : (closeLoop true st.instances st).state.securityGroupIds = some [g] := by
      rw [closeLoop_securityGroupIds]
      exact hid hb
    simp only [cleanup, hb, terminate_none_eq, closeLoop_error, if_true,
      delete_security_group, hsg, deleteSGLoop, List.append_nil]
    refine ⟨?_, ?_, ?_, ?_, ?_⟩
    · intro i hi
      simp only [List.mem_append]
      exact Or.inl (Or.inl (Or.inl ((mem_traceFor _ _ _).mpr ⟨i, hi, by simp⟩)))
    · intro _ i hi
      simp only [List.mem_append, if_true]
      exact Or.inl (Or.inl (Or.inr ((mem_traceFor _ _ _).mpr ⟨i, hi, by simp⟩)))
    · intro hfalse
      cases hfalse
    · intro _
      simp only [List.mem_append]
      exact Or.inr (List.mem_cons_self _ _)
    · intro hfalse
      cases hfalse
  | false =>
    simp only [cleanup, hb, terminate_none_eq, closeLoop_error, if_false, Bool.false_eq_true]
    refine ⟨?_, ?_, ?_, ?_, ?_⟩
    · intro i hi
      simp only [List.mem_append]
      exact Or.inl (Or.inl ((mem_traceFor _ _ _).mpr ⟨i, hi, by simp⟩))
    · intro htrue
      exact htrue.elim
    · intro _ n hmem
      simp only [List.mem_append] at hmem
      rcases hmem with (hmem | hmem) | hmem
      · rcases (mem_traceFor _ _ _).mp hmem with ⟨x, _, hx⟩
        simp at hx
      · simp at hmem
      · rcases closeLoop_suppress_trace st.instances st _ hmem with ⟨hh, hhe⟩
        simp at hhe
    · intro htrue
      exact htrue.elim
    · intro _ s hmem
      simp only [List.mem_append] at hmem
      rcases hmem with (hmem | hmem) | hmem
      · rcases (mem_traceFor _ _ _).mp hmem with ⟨x, _, hx⟩
        simp at hx
      · simp at hmem
      · rcases closeLoop_suppress_trace st.instances st _ hmem with ⟨hh, hhe⟩
        simp at hhe

/-- C6 witness: with one tracked instance, an owned security group
`sg-1`, the cleanup terminates the instance, waits for it, and deletes
the group; with ownership false it neither waits nor deletes. -/
theorem C6_witness :
    Effect.terminateCall 1 ∈
      (cleanup ⟨[⟨1, "a"⟩], [], [], some ["sg-1"], true, "/home/ubuntu/", 0⟩
        (fun _ => Option.none)).trace ∧
    Effect.waitUntilTerminated 1 ∈
      (cleanup ⟨[⟨1, "a"⟩], [], [], some ["sg-1"], true, "/home/ubuntu/", 0⟩
        (fun _ => Option.none)).trace ∧
    Effect.deleteSGCall "sg-1" ∈
      (cleanup ⟨[⟨1, "a"⟩], [], [], some ["sg-1"], true, "/home/ubuntu/", 0⟩
        (fun _ => Option.none)).trace ∧
    Effect.waitUntilTerminated 1 ∉
      (cleanup ⟨[⟨1, "a"⟩], [], [], Option.none, false, "/home/ubuntu/", 0⟩
        (fun _ => Option.none)).trace ∧
    Effect.deleteSGCall "sg-1" ∉
      (cleanup ⟨[⟨1, "a"⟩], [], [], Option.none, false, "/home/ubuntu/", 0⟩
        (fun _ => Option.none)).trace := by
  have h1 := C6_cleanup_waits_and_deletes_iff_owned
    ⟨[⟨1, "a"⟩], [], [], some ["sg-1"], true, "/home/ubuntu/", 0⟩
    (fun _ => Option.none) "sg-1" (fun _ => rfl)
  have h2 := C6_cleanup_waits_and_deletes_iff_owned
    ⟨[⟨1, "a"⟩], [], [], Option.none, false, "/home/ubuntu/", 0⟩
    (fun _ => Option.none) "sg-1" (fun hcontra => by cases hcontra)
  exact ⟨h1.1 ⟨1, "a"⟩ (by decide), h1.2.1 rfl ⟨1, "a"⟩ (by decide), h1.2.2.2.1 rfl,
    h2.2.2.1 rfl 1, h2.2.2.2.2 rfl "sg-1"⟩
